import Mathlib

/-!
# The VirtualBox pod provider of infranetes: sandbox lifecycle

A shallow embedding of `pkg/infranetes/provider/virtualbox/virtualbox.go`.

* The provider struct `vboxProvider` becomes a record that is passed in and
  handed back by every method (explicit state passing).
* `vmMap map[string]*podData` is an association list; a write through a
  `*podData` pointer is an in-place replacement of the entry (`VmMap.mutate`).
  The order of the list stands for the order in which Go happens to iterate the
  map; every statement below is quantified over the list, hence over that order.
* `vmMapLock sync.RWMutex` is a counter pair. A `Lock`/`RLock` that cannot be
  granted blocks the caller: in this single-caller model nobody else holds the
  lock, so the call never resumes (`Outcome.blocked`).
* Calls into libretto (`Provision`, `GetIPs`, `GetState`, `Destroy`, `GetName`),
  `common.CreateClient`, `time.Now` and the effectful `common.PodData` methods
  `StopPod`/`RemovePod` are answers of the environment, bundled in `Backend`.
* Every method also yields the trace of lock operations and backend calls it
  performed, in program order.
* The per-record `StateLock` is taken and released (deferred) inside
  `PodSandboxStatus` and `filter` only, once each; it plays no part in a
  single-caller run and is left out of the record.
-/

namespace Infranetes

/-- Go `map[string]string`. -/
abbrev StrMap := List (String × String)

/-- Go map read `m[k]` with the comma-ok form. -/
def StrMap.get : StrMap → String → Option String
  | [], _ => none
  | (k, x) :: rest, key => if k = key then some x else StrMap.get rest key

namespace kubeapi

/-- Values `PodSandBoxState_READY` and `PodSandBoxState_NOTREADY`. -/
inductive PodSandBoxState where
  | READY
  | NOTREADY
  deriving DecidableEq, Repr

structure PodSandboxMetadata where
  Name : String
  Uid : String
  Namespace : String
  Attempt : Nat
  deriving DecidableEq, Repr

structure LinuxPodSandboxConfig where
  CgroupParent : String
  deriving DecidableEq, Repr

/-- The sandbox configuration of a run request. `RunPodSandbox` dereferences
`req.Config` unconditionally, so the request type carries it. -/
structure PodSandboxConfig where
  Metadata : Option PodSandboxMetadata
  Labels : StrMap
  Annotations : StrMap
  Linux : Option LinuxPodSandboxConfig
  deriving DecidableEq, Repr

structure RunPodSandboxRequest where
  Config : PodSandboxConfig
  deriving DecidableEq, Repr

structure RunPodSandboxResponse where
  PodSandboxId : Option String
  deriving DecidableEq, Repr

structure StopPodSandboxRequest where
  PodSandboxId : Option String
  deriving DecidableEq, Repr

structure StopPodSandboxResponse where
  deriving DecidableEq, Repr

structure RemovePodSandboxRequest where
  PodSandboxId : Option String
  deriving DecidableEq, Repr

structure RemovePodSandboxResponse where
  deriving DecidableEq, Repr

structure PodSandboxStatusRequest where
  PodSandboxId : Option String
  deriving DecidableEq, Repr

/-- Generated getter: the empty string when the field is unset. -/
def StopPodSandboxRequest.GetPodSandboxId (r : StopPodSandboxRequest) : String :=
  r.PodSandboxId.getD ""

/-- Generated getter: the empty string when the field is unset. -/
def RemovePodSandboxRequest.GetPodSandboxId (r : RemovePodSandboxRequest) : String :=
  r.PodSandboxId.getD ""

/-- Generated getter: the empty string when the field is unset. -/
def PodSandboxStatusRequest.GetPodSandboxId (r : PodSandboxStatusRequest) : String :=
  r.PodSandboxId.getD ""

/-- Filter of a list request: each criterion is optional. -/
structure PodSandboxFilter where
  Id : Option String
  State : Option PodSandBoxState
  LabelSelector : StrMap
  deriving DecidableEq, Repr

structure ListPodSandboxRequest where
  Filter : Option PodSandboxFilter
  deriving DecidableEq, Repr

/-- Status projection of a record. -/
structure PodSandboxStatus where
  Id : String
  State : PodSandBoxState
  Metadata : Option PodSandboxMetadata
  Labels : StrMap
  Annotations : StrMap
  CreatedAt : Int
  Ip : String
  Linux : Option LinuxPodSandboxConfig
  deriving DecidableEq, Repr

structure PodSandboxStatusResponse where
  Status : PodSandboxStatus
  deriving DecidableEq, Repr

/-- List item: the projection of one record. -/
structure PodSandbox where
  Id : String
  State : PodSandBoxState
  Metadata : Option PodSandboxMetadata
  Labels : StrMap
  Annotations : StrMap
  CreatedAt : Int
  deriving DecidableEq, Repr

structure ListPodSandboxResponse where
  Items : List PodSandbox
  deriving DecidableEq, Repr

end kubeapi

namespace lvm

/-- Run states reported by libretto; the provider only compares with `VMRunning`. -/
inductive VMState where
  | VMStarting
  | VMRunning
  | VMHalted
  | VMSuspended
  | VMPending
  | VMError
  | VMUnknown
  deriving DecidableEq, Repr

end lvm

namespace net

/-- An address as returned by `GetIPs`; `text` is what `String()` renders. -/
structure IP where
  text : String
  deriving DecidableEq, Repr

/-- Method `IP.String()`. -/
def IP.String (ip : IP) : String := ip.text

end net

namespace virtualbox

inductive Backing where
  | Bridged
  | Nat
  | Hostonly
  | Internal
  | Disabled
  deriving DecidableEq, Repr

structure NIC where
  Idx : Nat
  Backing : Backing
  BackingDevice : String
  deriving DecidableEq, Repr

structure Config where
  NICs : List NIC
  deriving DecidableEq, Repr

/-- The libretto VM value: `Src` and `Config` are set by the provider, `Name`
is assigned by the backend while provisioning. -/
structure VM where
  Name : String
  Src : String
  Config : Config
  deriving DecidableEq, Repr

end virtualbox

namespace common

/-- Handle of the guest client built by `CreateClient`. -/
structure Client where
  addr : String
  deriving DecidableEq, Repr

/-- Fields of `common.PodData` that `virtualbox.go` sets or reads. `Id` is a
`*string` there, always set to the address of the VM name. -/
structure PodData where
  Id : String
  Metadata : Option kubeapi.PodSandboxMetadata
  Annotations : StrMap
  CreatedAt : Int
  Ip : String
  Labels : StrMap
  Linux : Option kubeapi.LinuxPodSandboxConfig
  Client : Client
  PodState : kubeapi.PodSandBoxState
  deriving DecidableEq, Repr

end common

/-- Record of one sandbox: `common.PodData` embedded, plus the VM. -/
structure podData extends common.PodData where
  vm : virtualbox.VM
  deriving DecidableEq, Repr

/-! ## The readers-writer lock -/

/-- State of a `sync.RWMutex`: whether a writer holds it, and how many readers. -/
structure RWMutex where
  writer : Bool
  readers : Nat
  deriving DecidableEq, Repr

/-- The zero value: unlocked. -/
def RWMutex.free : RWMutex := ⟨false, 0⟩

/-- Method `Lock()`: granted only when nobody holds the lock; `none` means the caller blocks. -/
def RWMutex.Lock (l : RWMutex) : Option RWMutex :=
  if l.writer = false ∧ l.readers = 0 then some { l with writer := true } else none

/-- Method `Unlock()`: `none` is the runtime's fatal "Unlock of unlocked RWMutex". -/
def RWMutex.Unlock (l : RWMutex) : Option RWMutex :=
  if l.writer = true then some { l with writer := false } else none

/-- Method `RLock()`: granted unless a writer holds the lock; `none` means the caller blocks. -/
def RWMutex.RLock (l : RWMutex) : Option RWMutex :=
  if l.writer = false then some { l with readers := l.readers + 1 } else none

/-- Method `RUnlock()`: `none` is the runtime's fatal "RUnlock of unlocked RWMutex". -/
def RWMutex.RUnlock (l : RWMutex) : Option RWMutex :=
  if 0 < l.readers then some { l with readers := l.readers - 1 } else none

/-! ## The record table -/

/-- Go `map[string]*podData`. -/
abbrev VmMap := List (String × podData)

/-- Map read `v.vmMap[id]` with the comma-ok form. -/
def VmMap.lookup : VmMap → String → Option podData
  | [], _ => none
  | (k, pd) :: rest, id => if k = id then some pd else VmMap.lookup rest id

/-- Map write `v.vmMap[id] = pd`. -/
def VmMap.store : VmMap → String → podData → VmMap
  | [], id, pd => [(id, pd)]
  | (k, x) :: rest, id, pd =>
    if k = id then (k, pd) :: rest else (k, x) :: VmMap.store rest id pd

/-- Builtin `delete(v.vmMap, id)`. -/
def VmMap.delete (m : VmMap) (id : String) : VmMap :=
  m.filter (fun e => decide (e.1 ≠ id))

/-- Write through the pointer obtained by a read of key `id`: the entry is replaced in place. -/
def VmMap.mutate : VmMap → String → podData → VmMap
  | [], _, _ => []
  | (k, x) :: rest, id, pd =>
    if k = id then (k, pd) :: rest else (k, x) :: VmMap.mutate rest id pd

/-- The keys of the table, in iteration order. -/
def VmMap.ids (m : VmMap) : List String := m.map Prod.fst

structure vboxProvider where
  netDevice : String
  vmSrc : String
  vmMap : VmMap
  vmMapLock : RWMutex
  deriving DecidableEq, Repr

/-! ## Environment, traces and outcomes -/

/-- Answers of everything outside `virtualbox.go` during one call. An `error`
result is `Except.error msg`, or `some msg` where the call returns only an error.
`StopPod` and `RemovePod` act on the embedded `common.PodData` through its
pointer, so they hand back the record they leave behind. -/
structure Backend where
  Provision : virtualbox.VM → Except String virtualbox.VM
  GetIPs : virtualbox.VM → Except String (List net.IP)
  GetName : virtualbox.VM → String
  GetState : virtualbox.VM → Except String lvm.VMState
  Destroy : virtualbox.VM → Option String
  CreateClient : String → Except String common.Client
  StopPod : common.PodData → common.PodData × Option String
  RemovePod : common.PodData → common.PodData × Option String
  Now : Int

/-- What a method did, in program order: operations on `vmMapLock` (a `Lock` or
`RLock` event is the request, granted or not) and calls into the backend. -/
inductive Event where
  | Lock
  | Unlock
  | RLock
  | RUnlock
  | Provision (vm : virtualbox.VM)
  | GetIPs (vm : virtualbox.VM)
  | CreateClient (ip : String)
  | GetName (vm : virtualbox.VM)
  | GetState (vm : virtualbox.VM)
  | Destroy (vm : virtualbox.VM)
  | StopPod (id : String)
  | RemovePod (id : String)
  deriving DecidableEq, Repr

/-- How a call ends: it returns Go's `(resp, nil)` as `.ok resp` or `(nil, err)`
as `.error msg`; it panics; or it blocks forever on the lock. -/
inductive Outcome (α : Type) where
  | returned (r : Except String α)
  | panicked (msg : String)
  | blocked

/-- Result of running one method: provider state at the end (or where the call
stops), the trace, and the outcome. -/
structure Run (α : Type) where
  v : vboxProvider
  trace : List Event
  out : Outcome α

/-- The deferred `v.vmMapLock.Unlock()` running at function exit. -/
def deferUnlock {α : Type} (v : vboxProvider) (tr : List Event) (r : Except String α) : Run α :=
  match v.vmMapLock.Unlock with
  | some l => ⟨{ v with vmMapLock := l }, tr ++ [Event.Unlock], Outcome.returned r⟩
  | none => ⟨v, tr ++ [Event.Unlock], Outcome.panicked "sync: Unlock of unlocked RWMutex"⟩

/-- The deferred `v.vmMapLock.RUnlock()` running at function exit. -/
def deferRUnlock {α : Type} (v : vboxProvider) (tr : List Event) (r : Except String α) : Run α :=
  match v.vmMapLock.RUnlock with
  | some l => ⟨{ v with vmMapLock := l }, tr ++ [Event.RUnlock], Outcome.returned r⟩
  | none => ⟨v, tr ++ [Event.RUnlock], Outcome.panicked "sync: RUnlock of unlocked RWMutex"⟩

/-! ## Methods of `common.PodData` used by the provider -/

/-- Modelled from the spec: `common.PodData.PodStatus` is not part of the
sources at hand. The response projection of a record: id, state, metadata,
labels, annotations, creation time, ip and the namespace options. -/
def common.PodData.PodStatus (p : common.PodData) : kubeapi.PodSandboxStatus :=
  { Id := p.Id, State := p.PodState, Metadata := p.Metadata, Labels := p.Labels,
    Annotations := p.Annotations, CreatedAt := p.CreatedAt, Ip := p.Ip, Linux := p.Linux }

/-- Modelled from the spec: `common.PodData.GetSandbox` is not part of the
sources at hand. The list item is the projection of the record. -/
def common.PodData.GetSandbox (p : common.PodData) : kubeapi.PodSandbox :=
  { Id := p.Id, State := p.PodState, Metadata := p.Metadata, Labels := p.Labels,
    Annotations := p.Annotations, CreatedAt := p.CreatedAt }

/-- Modelled from the spec: the filter predicate behind `common.PodData.Filter`,
which is not part of the sources at hand. A record is accepted when it has the
requested id, the requested state, and every label pair of the selector is
present and equal in the record's labels; a criterion that is unset accepts. -/
def common.PodData.Accepts (p : common.PodData) (f : kubeapi.PodSandboxFilter) : Bool :=
  (match f.Id with
    | none => true
    | some id => decide (id = p.Id)) &&
  (match f.State with
    | none => true
    | some st => decide (st = p.PodState)) &&
  f.LabelSelector.all (fun kv => decide (StrMap.get p.Labels kv.1 = some kv.2))

/-- Modelled from the spec: `common.PodData.Filter` is not part of the sources
at hand. Its first result says that the record is filtered OUT (this is how
`filter` in `virtualbox.go` reads it); the second is the log message. -/
def common.PodData.Filter (p : common.PodData) (reqFilter : Option kubeapi.PodSandboxFilter) :
    Bool × String :=
  match reqFilter with
  | none => (false, "")
  | some f => if p.Accepts f then (false, "") else (true, "no match")

/-! ## The methods of `vboxProvider` -/

/-- Method `getPodData` (the caller holds at least the read lock). -/
def vboxProvider.getPodData (v : vboxProvider) (id : String) : Except String podData :=
  match v.vmMap.lookup id with
  | none => Except.error ("Invalid PodSandboxId (" ++ id ++ ")")
  | some pd => Except.ok pd

/-- Method `StopPodSandbox`. The error of `StopPod` is assigned and never read. -/
def StopPodSandbox (b : Backend) (v : vboxProvider) (req : kubeapi.StopPodSandboxRequest) :
    Run kubeapi.StopPodSandboxResponse :=
  match v.vmMapLock.RLock with
  | none => ⟨v, [Event.RLock], Outcome.blocked⟩
  | some l =>
    let v1 := { v with vmMapLock := l }
    match v1.getPodData req.GetPodSandboxId with
    | Except.error err =>
      deferRUnlock v1 [Event.RLock] (Except.error ("StopPodSandbox: " ++ err))
    | Except.ok pd =>
      let stopped := b.StopPod pd.toPodData
      let v2 := { v1 with
        vmMap := v1.vmMap.mutate req.GetPodSandboxId { pd with toPodData := stopped.1 } }
      deferRUnlock v2 [Event.RLock, Event.StopPod req.GetPodSandboxId] (Except.ok {})

/-- Method `RemovePodSandbox`. After `Destroy` and `RemovePod` it calls
`v.vmMapLock.Lock()` a second time, while the lock taken on entry is still held
(its `Unlock` is deferred to function exit). -/
def RemovePodSandbox (b : Backend) (v : vboxProvider) (req : kubeapi.RemovePodSandboxRequest) :
    Run kubeapi.RemovePodSandboxResponse :=
  match v.vmMapLock.Lock with
  | none => ⟨v, [Event.Lock], Outcome.blocked⟩
  | some l =>
    let v1 := { v with vmMapLock := l }
    match v1.getPodData req.GetPodSandboxId with
    | Except.error err =>
      deferUnlock v1 [Event.Lock] (Except.error ("RemovePodSandbox: " ++ err))
    | Except.ok pd =>
      match b.Destroy pd.vm with
      | some err =>
        deferUnlock v1 [Event.Lock, Event.Destroy pd.vm]
          (Except.error ("RemovePodSandbox: " ++ err))
      | none =>
        let removed := b.RemovePod pd.toPodData
        let v2 := { v1 with
          vmMap := v1.vmMap.mutate req.GetPodSandboxId { pd with toPodData := removed.1 } }
        let tr := [Event.Lock, Event.Destroy pd.vm, Event.RemovePod req.GetPodSandboxId]
        match v2.vmMapLock.Lock with
        | none => ⟨v2, tr ++ [Event.Lock], Outcome.blocked⟩
        | some l2 =>
          let v3 := { v2 with vmMapLock := l2, vmMap := v2.vmMap.delete req.GetPodSandboxId }
          match v3.vmMapLock.Unlock with
          | none =>
            ⟨v3, tr ++ [Event.Lock, Event.Unlock],
              Outcome.panicked "sync: Unlock of unlocked RWMutex"⟩
          | some l3 =>
            deferUnlock { v3 with vmMapLock := l3 } (tr ++ [Event.Lock, Event.Unlock])
              (Except.ok {})

/-- Method `RunPodSandbox`. `ips[0]` indexes the slice returned by `GetIPs`
without a length check; the table lock is taken only after provisioning and
client construction. -/
def RunPodSandbox (b : Backend) (v : vboxProvider) (req : kubeapi.RunPodSandboxRequest) :
    Run kubeapi.RunPodSandboxResponse :=
  let config : virtualbox.Config :=
    { NICs := [{ Idx := 1, Backing := virtualbox.Backing.Bridged, BackingDevice := v.netDevice }] }
  let vm0 : virtualbox.VM := { Name := "", Src := v.vmSrc, Config := config }
  match b.Provision vm0 with
  | Except.error err =>
    ⟨v, [Event.Provision vm0], Outcome.returned (Except.error ("Failed to Provision: " ++ err))⟩
  | Except.ok vm =>
    match b.GetIPs vm with
    | Except.error err =>
      ⟨v, [Event.Provision vm0, Event.GetIPs vm],
        Outcome.returned (Except.error ("CreatePodSandbox: error in GetIPs(): " ++ err))⟩
    | Except.ok ips =>
      match ips with
      | [] =>
        ⟨v, [Event.Provision vm0, Event.GetIPs vm],
          Outcome.panicked "runtime error: index out of range"⟩
      | ip0 :: _ =>
        let ip := ip0.String
        match b.CreateClient ip with
        | Except.error err =>
          ⟨v, [Event.Provision vm0, Event.GetIPs vm, Event.CreateClient ip],
            Outcome.returned (Except.error ("CreatePodSandbox: error in createClient(): " ++ err))⟩
        | Except.ok client =>
          let name := b.GetName vm
          let tr := [Event.Provision vm0, Event.GetIPs vm, Event.CreateClient ip,
            Event.GetName vm, Event.Lock]
          match v.vmMapLock.Lock with
          | none => ⟨v, tr, Outcome.blocked⟩
          | some l =>
            let rec_ : podData :=
              { Id := name, Metadata := req.Config.Metadata, Annotations := req.Config.Annotations,
                CreatedAt := b.Now, Ip := ip, Labels := req.Config.Labels,
                Linux := req.Config.Linux, Client := client,
                PodState := kubeapi.PodSandBoxState.READY, vm := vm }
            let v1 := { v with vmMapLock := l, vmMap := v.vmMap.store name rec_ }
            deferUnlock v1 tr (Except.ok { PodSandboxId := some name })

/-- The shared tail of `PodSandboxStatus` and `filter`: a VM that is not running
turns the record `NOTREADY`; a running VM leaves the record as it is. -/
def podData.observe (pd : podData) (vmState : lvm.VMState) : podData :=
  if vmState ≠ lvm.VMState.VMRunning then
    { pd with PodState := kubeapi.PodSandBoxState.NOTREADY }
  else pd

/-- Method `PodSandboxStatus`. -/
def PodSandboxStatus (b : Backend) (v : vboxProvider) (req : kubeapi.PodSandboxStatusRequest) :
    Run kubeapi.PodSandboxStatusResponse :=
  match v.vmMapLock.RLock with
  | none => ⟨v, [Event.RLock], Outcome.blocked⟩
  | some l =>
    let v1 := { v with vmMapLock := l }
    match v1.getPodData req.GetPodSandboxId with
    | Except.error err =>
      deferRUnlock v1 [Event.RLock] (Except.error ("PodSandboxStatus: " ++ err))
    | Except.ok pd =>
      match b.GetState pd.vm with
      | Except.error err =>
        deferRUnlock v1 [Event.RLock, Event.GetState pd.vm]
          (Except.error ("PodSandboxStatus: error in GetState(): " ++ err))
      | Except.ok vmState =>
        let pd1 := pd.observe vmState
        let v2 := { v1 with vmMap := v1.vmMap.mutate req.GetPodSandboxId pd1 }
        deferRUnlock v2 [Event.RLock, Event.GetState pd.vm]
          (Except.ok { Status := pd1.PodStatus })

/-- Function `filter`: the record as the call leaves it, and Go's
`(sandbox, true)` as `some sandbox`, `(nil, false)` as `none`. -/
def filter (b : Backend) (pd : podData) (reqFilter : Option kubeapi.PodSandboxFilter) :
    podData × Option kubeapi.PodSandbox :=
  match b.GetState pd.vm with
  | Except.error _ => (pd, none)
  | Except.ok vmState =>
    let pd1 := pd.observe vmState
    if (pd1.Filter reqFilter).1 then (pd1, none)
    else (pd1, some pd1.GetSandbox)

/-- The `range v.vmMap` loop of `ListPodSandbox`: the entries still to visit,
and the slice `sandboxes` and the trace so far. Yields the visited entries as
the loop leaves them, the final slice and the final trace. -/
def ListPodSandbox.loop (b : Backend) (reqFilter : Option kubeapi.PodSandboxFilter) :
    VmMap → List kubeapi.PodSandbox → List Event →
      VmMap × List kubeapi.PodSandbox × List Event
  | [], sandboxes, tr => ([], sandboxes, tr)
  | (id, pd) :: rest, sandboxes, tr =>
    let r := filter b pd reqFilter
    let sandboxes1 :=
      match r.2 with
      | some sandbox => sandboxes ++ [sandbox]
      | none => sandboxes
    let next := ListPodSandbox.loop b reqFilter rest sandboxes1 (tr ++ [Event.GetState pd.vm])
    ((id, r.1) :: next.1, next.2.1, next.2.2)

/-- Method `ListPodSandbox`. -/
def ListPodSandbox (b : Backend) (v : vboxProvider) (req : kubeapi.ListPodSandboxRequest) :
    Run kubeapi.ListPodSandboxResponse :=
  match v.vmMapLock.RLock with
  | none => ⟨v, [Event.RLock], Outcome.blocked⟩
  | some l =>
    let v1 := { v with vmMapLock := l }
    let scan := ListPodSandbox.loop b req.Filter v1.vmMap [] [Event.RLock]
    deferRUnlock { v1 with vmMap := scan.1 } scan.2.2 (Except.ok { Items := scan.2.1 })

/-- Method `GetClientLocked` (the caller holds the read lock). -/
def GetClientLocked (v : vboxProvider) (podName : String) : Except String common.Client :=
  match v.getPodData podName with
  | Except.error _ => Except.error (podName ++ " unknown pod name")
  | Except.ok pd => Except.ok pd.Client

/-- Method `GetClient`. -/
def GetClient (v : vboxProvider) (podName : String) : Run common.Client :=
  match v.vmMapLock.RLock with
  | none => ⟨v, [Event.RLock], Outcome.blocked⟩
  | some l =>
    let v1 := { v with vmMapLock := l }
    deferRUnlock v1 [Event.RLock] (GetClientLocked v1 podName)

/-! ## Sequences of status and list calls -/

/-- One status or list call, together with the answers the backend gives while it runs. -/
inductive Call where
  | status (b : Backend) (req : kubeapi.PodSandboxStatusRequest)
  | list (b : Backend) (req : kubeapi.ListPodSandboxRequest)

/-- What the caller of a `Call` gets back. -/
inductive Reply where
  | status (out : Outcome kubeapi.PodSandboxStatusResponse)
  | list (out : Outcome kubeapi.ListPodSandboxResponse)

/-- Run one call on the provider. -/
def Call.run (v : vboxProvider) : Call → vboxProvider × Reply
  | Call.status b req => ((PodSandboxStatus b v req).v, Reply.status (PodSandboxStatus b v req).out)
  | Call.list b req => ((ListPodSandbox b v req).v, Reply.list (ListPodSandbox b v req).out)

/-- Run the calls one after the other; the replies come in call order. -/
def runCalls : vboxProvider → List Call → vboxProvider × List Reply
  | v, [] => (v, [])
  | v, c :: cs => ((runCalls (c.run v).1 cs).1, (c.run v).2 :: (runCalls (c.run v).1 cs).2)

/-- The states a reply reports for sandbox `id`: the state of a status whose id
is `id`, the states of the list items whose id is `id`. -/
def Reply.statesFor (id : String) : Reply → List kubeapi.PodSandBoxState
  | Reply.status (Outcome.returned (Except.ok resp)) =>
    if resp.Status.Id = id then [resp.Status.State] else []
  | Reply.list (Outcome.returned (Except.ok resp)) =>
    (resp.Items.filter (fun s => decide (s.Id = id))).map (fun s => s.State)
  | _ => []

/-- The backend answers the state query of `pd` with a state other than running. -/
def Backend.notRunning (b : Backend) (pd : podData) : Bool :=
  match b.GetState pd.vm with
  | Except.ok st => decide (st ≠ lvm.VMState.VMRunning)
  | Except.error _ => false

/-- The call queries the VM of the record stored under `id` and sees it not
running: a status call for `id`, or any list call. -/
def Call.observesNotRunning (m : VmMap) (id : String) : Call → Bool
  | Call.status b req =>
    decide (req.GetPodSandboxId = id) &&
      (match m.lookup id with
        | some pd => b.notRunning pd
        | none => false)
  | Call.list b _ =>
    match m.lookup id with
    | some pd => b.notRunning pd
    | none => false

/-- Shape of every table `RunPodSandbox` builds: keys are distinct (it is a map)
and each record is stored under its own `Id`. -/
def VmMap.WF (m : VmMap) : Prop :=
  m.ids.Nodup ∧ ∀ e ∈ m, e.2.Id = e.1

/-- What a status or list call may do to one entry: key, id and VM stay, and a
`NOTREADY` record stays `NOTREADY`. -/
def entryStep (e e' : String × podData) : Prop :=
  e'.1 = e.1 ∧ e'.2.Id = e.2.Id ∧ e'.2.vm = e.2.vm ∧
    (e.2.PodState = kubeapi.PodSandBoxState.NOTREADY →
      e'.2.PodState = kubeapi.PodSandBoxState.NOTREADY)

/-- Every record with id `id` is `NOTREADY`. -/
def VmMap.allDown (m : VmMap) (id : String) : Prop :=
  ∀ e ∈ m, e.2.Id = id → e.2.PodState = kubeapi.PodSandBoxState.NOTREADY

/-! ## The list scan as the spec words it -/

/-- The spec's re-derivation of `podState`: query the VM state, flip to
`NOTREADY` if it is not running; a failed query changes nothing. -/
def ListPodSandbox.specState (b : Backend) (pd : podData) : podData :=
  match b.GetState pd.vm with
  | Except.ok st =>
    if st = lvm.VMState.VMRunning then pd
    else { pd with PodState := kubeapi.PodSandBoxState.NOTREADY }
  | Except.error _ => pd

/-- The spec's item of one record: none when the state query fails or the
filter rejects the re-derived record, else the projection of the re-derived record. -/
def ListPodSandbox.specItem (b : Backend) (reqFilter : Option kubeapi.PodSandboxFilter)
    (pd : podData) : Option kubeapi.PodSandbox :=
  match b.GetState pd.vm with
  | Except.error _ => none
  | Except.ok _ =>
    if ((ListPodSandbox.specState b pd).Filter reqFilter).1 = false then
      some (ListPodSandbox.specState b pd).GetSandbox
    else none

/-! ## Concrete backends and stores for the worked examples -/

/-- A backend where everything succeeds: the VM is named `vm-1` and gets one address. -/
def okBackend : Backend :=
  { Provision := fun vm => Except.ok { vm with Name := "vm-1" },
    GetIPs := fun _ => Except.ok [⟨"10.0.0.5"⟩],
    GetName := fun vm => vm.Name,
    GetState := fun _ => Except.ok lvm.VMState.VMRunning,
    Destroy := fun _ => none,
    CreateClient := fun ip => Except.ok ⟨ip⟩,
    StopPod := fun p => (p, none),
    RemovePod := fun p => (p, none),
    Now := 1478000000 }

/-- Provisioning succeeds, but the VM reports no address (and no error). -/
def noIPBackend : Backend := { okBackend with GetIPs := fun _ => Except.ok [] }

/-- The VM cannot be destroyed. -/
def stuckBackend : Backend := { okBackend with Destroy := fun _ => some "VBoxManage failed" }

/-- The client cannot be built. -/
def noClientBackend : Backend :=
  { okBackend with CreateClient := fun _ => Except.error "connection refused" }

/-- The VM is halted. -/
def haltedBackend : Backend :=
  { okBackend with GetState := fun _ => Except.ok lvm.VMState.VMHalted }

/-- Stopping fails. -/
def noStopBackend : Backend := { okBackend with StopPod := fun p => (p, some "stop failed") }

/-- A provider right after construction: no records, lock free. -/
def newProvider : vboxProvider := ⟨"eth0", "/img/base.ova", [], RWMutex.free⟩

/-- A run request with one label. -/
def prodReq : kubeapi.RunPodSandboxRequest :=
  ⟨{ Metadata := some ⟨"web", "uid-1", "default", 0⟩, Labels := [("env", "prod")],
     Annotations := [("owner", "ops")], Linux := none }⟩

/-- The VM value `RunPodSandbox` hands to `Provision` on `newProvider`. -/
def vm0 : virtualbox.VM :=
  ⟨"", "/img/base.ova", ⟨[⟨1, virtualbox.Backing.Bridged, "eth0"⟩]⟩⟩

/-- The VM after `okBackend` has provisioned it. -/
def vm1 : virtualbox.VM := { vm0 with Name := "vm-1" }

/-- The record `RunPodSandbox okBackend newProvider prodReq` inserts. -/
def rec1 : podData :=
  { Id := "vm-1", Metadata := some ⟨"web", "uid-1", "default", 0⟩,
    Annotations := [("owner", "ops")], CreatedAt := 1478000000, Ip := "10.0.0.5",
    Labels := [("env", "prod")], Linux := none, Client := ⟨"10.0.0.5"⟩,
    PodState := kubeapi.PodSandBoxState.READY, vm := vm1 }

/-- The provider after one successful `RunPodSandbox`. -/
def oneProvider : vboxProvider := (RunPodSandbox okBackend newProvider prodReq).v

/-! ## Facts about the record table -/

theorem VmMap.lookup_store_self (m : VmMap) (id : String) (pd : podData) :
    (m.store id pd).lookup id = some pd := by
  induction m with
  | nil => simp [VmMap.store, VmMap.lookup]
  | cons e rest ih =>
    obtain ⟨k, x⟩ := e
    by_cases hk : k = id
    · simp [VmMap.store, VmMap.lookup, hk]
    · simp [VmMap.store, VmMap.lookup, hk, ih]

theorem VmMap.lookup_store_other (m : VmMap) (id k : String) (pd : podData) (hk : k ≠ id) :
    (m.store id pd).lookup k = m.lookup k := by
  induction m with
  | nil =>
    have : ¬ id = k := fun h => hk h.symm
    simp [VmMap.store, VmMap.lookup, this]
  | cons e rest ih =>
    obtain ⟨k', x⟩ := e
    by_cases hk' : k' = id
    · subst hk'
      have : ¬ k' = k := fun h => hk h.symm
      simp [VmMap.store, VmMap.lookup, this]
    · by_cases hkk : k' = k
      · subst hkk
        simp [VmMap.store, VmMap.lookup, hk']
      · simp [VmMap.store, VmMap.lookup, hk', hkk, ih]

theorem VmMap.ids_mutate (m : VmMap) (id : String) (pd : podData) :
    (m.mutate id pd).ids = m.ids := by
  induction m with
  | nil => rfl
  | cons e rest ih =>
    obtain ⟨k, x⟩ := e
    by_cases hk : k = id
    · simp [VmMap.mutate, VmMap.ids, hk]
    · simpa [VmMap.mutate, VmMap.ids, hk] using ih

theorem VmMap.mutate_lookup_self (m : VmMap) (id : String) (pd : podData)
    (h : m.lookup id = some pd) : m.mutate id pd = m := by
  induction m with
  | nil => rfl
  | cons e rest ih =>
    obtain ⟨k, x⟩ := e
    by_cases hk : k = id
    · simp [VmMap.lookup, hk] at h
      simp [VmMap.mutate, hk, h]
    · simp [VmMap.lookup, hk] at h
      simp [VmMap.mutate, hk, ih h]

/-! ## RemovePodSandbox -/

/-- C6: removing an id that is not in the table returns the not-found error,
makes no `Destroy` call, leaves the provider (table and lock) exactly as it was,
and a second call, whatever the backend then answers, does the same. -/
theorem RemovePodSandbox_unknown_id (b b' : Backend) (nd src : String) (m : VmMap)
    (req : kubeapi.RemovePodSandboxRequest)
    (habsent : m.lookup req.GetPodSandboxId = none) :
    (RemovePodSandbox b ⟨nd, src, m, RWMutex.free⟩ req).out =
        Outcome.returned (Except.error
          ("RemovePodSandbox: " ++ ("Invalid PodSandboxId (" ++ req.GetPodSandboxId ++ ")"))) ∧
      (∀ vm, Event.Destroy vm ∉ (RemovePodSandbox b ⟨nd, src, m, RWMutex.free⟩ req).trace) ∧
      (RemovePodSandbox b ⟨nd, src, m, RWMutex.free⟩ req).v = ⟨nd, src, m, RWMutex.free⟩ ∧
      (RemovePodSandbox b' (RemovePodSandbox b ⟨nd, src, m, RWMutex.free⟩ req).v req).out =
        (RemovePodSandbox b ⟨nd, src, m, RWMutex.free⟩ req).out ∧
      (RemovePodSandbox b' (RemovePodSandbox b ⟨nd, src, m, RWMutex.free⟩ req).v req).v =
        ⟨nd, src, m, RWMutex.free⟩ := by
  have key : ∀ c : Backend, RemovePodSandbox c ⟨nd, src, m, RWMutex.free⟩ req =
      ⟨⟨nd, src, m, RWMutex.free⟩, [Event.Lock, Event.Unlock],
        Outcome.returned (Except.error
          ("RemovePodSandbox: " ++ ("Invalid PodSandboxId (" ++ req.GetPodSandboxId ++ ")")))⟩ := by
    intro c
    simp [RemovePodSandbox, RWMutex.Lock, RWMutex.free, vboxProvider.getPodData, habsent,
      deferUnlock, RWMutex.Unlock]
  simp [key]

/-- C6 at a concrete input: `vm-2` is not in a table that holds `vm-1`. -/
theorem RemovePodSandbox_unknown_id_witness :
    (RemovePodSandbox okBackend ⟨"eth0", "/img/base.ova", [("vm-1", rec1)], RWMutex.free⟩
        ⟨some "vm-2"⟩).out =
        Outcome.returned (Except.error "RemovePodSandbox: Invalid PodSandboxId (vm-2)") ∧
      (RemovePodSandbox okBackend ⟨"eth0", "/img/base.ova", [("vm-1", rec1)], RWMutex.free⟩
        ⟨some "vm-2"⟩).v = ⟨"eth0", "/img/base.ova", [("vm-1", rec1)], RWMutex.free⟩ :=
  have h := RemovePodSandbox_unknown_id okBackend stuckBackend "eth0" "/img/base.ova"
    [("vm-1", rec1)] ⟨some "vm-2"⟩ (by decide)
  ⟨h.1, h.2.2.1⟩

/-- C3, as amended: when `Destroy` fails for a stored id, `RemovePodSandbox`
returns the wrapped destroy error after exactly one `Destroy` call, and the
provider is left exactly as it was: the record is still stored under the id and
the lock is free again. -/
theorem RemovePodSandbox_destroy_failure_keeps_record (b : Backend) (nd src : String)
    (m : VmMap) (req : kubeapi.RemovePodSandboxRequest) (pd : podData) (err : String)
    (hpresent : m.lookup req.GetPodSandboxId = some pd)
    (hdestroy : b.Destroy pd.vm = some err) :
    (RemovePodSandbox b ⟨nd, src, m, RWMutex.free⟩ req).out =
        Outcome.returned (Except.error ("RemovePodSandbox: " ++ err)) ∧
      (RemovePodSandbox b ⟨nd, src, m, RWMutex.free⟩ req).trace =
        [Event.Lock, Event.Destroy pd.vm, Event.Unlock] ∧
      (RemovePodSandbox b ⟨nd, src, m, RWMutex.free⟩ req).v = ⟨nd, src, m, RWMutex.free⟩ ∧
      (RemovePodSandbox b ⟨nd, src, m, RWMutex.free⟩ req).v.vmMap.lookup req.GetPodSandboxId =
        some pd := by
  have key : RemovePodSandbox b ⟨nd, src, m, RWMutex.free⟩ req =
      ⟨⟨nd, src, m, RWMutex.free⟩, [Event.Lock, Event.Destroy pd.vm, Event.Unlock],
        Outcome.returned (Except.error ("RemovePodSandbox: " ++ err))⟩ := by
    simp [RemovePodSandbox, RWMutex.Lock, RWMutex.free, vboxProvider.getPodData, hpresent,
      hdestroy, deferUnlock, RWMutex.Unlock]
  simp [key, hpresent]

/-- C3, amended, at a concrete input: `vm-1` is stored and cannot be destroyed. -/
theorem RemovePodSandbox_destroy_failure_keeps_record_witness :
    (RemovePodSandbox stuckBackend oneProvider ⟨some "vm-1"⟩).out =
        Outcome.returned (Except.error ("RemovePodSandbox: " ++ "VBoxManage failed")) ∧
      (RemovePodSandbox stuckBackend oneProvider ⟨some "vm-1"⟩).v.vmMap.lookup "vm-1" =
        some rec1 :=
  have h := RemovePodSandbox_destroy_failure_keeps_record stuckBackend "eth0" "/img/base.ova"
    [("vm-1", rec1)] ⟨some "vm-1"⟩ rec1 "VBoxManage failed" (by decide) (by decide)
  ⟨h.1, h.2.2.2⟩

/-- C3 as stated fails: `vm-1` is stored, its `Destroy` fails, `RemovePodSandbox`
reports the error, and `vm-1` is still in the table afterwards. -/
theorem RemovePodSandbox_destroy_failure_not_removed :
    oneProvider.vmMapLock = RWMutex.free ∧
      oneProvider.vmMap.lookup "vm-1" = some rec1 ∧
      stuckBackend.Destroy rec1.vm = some "VBoxManage failed" ∧
      ¬ ((∃ e, (RemovePodSandbox stuckBackend oneProvider ⟨some "vm-1"⟩).out =
            Outcome.returned (Except.error e)) ∧
          (RemovePodSandbox stuckBackend oneProvider ⟨some "vm-1"⟩).v.vmMap.lookup "vm-1" =
            none) := by
  refine ⟨by decide, by decide, by decide, ?_⟩
  intro h
  have hl : (RemovePodSandbox stuckBackend oneProvider ⟨some "vm-1"⟩).v.vmMap.lookup "vm-1" =
      some rec1 := by decide
  rw [hl] at h
  exact absurd h.2 (by simp)

/-- C1: the code at the failing input. `vm-1` has just been created by
`RunPodSandbox` and its `Destroy` succeeds; `RemovePodSandbox` does not return
(it blocks), and the record of `vm-1` is still in the table, so a lookup would
still find it. -/
theorem RemovePodSandbox_present_never_returns :
    oneProvider.vmMap.lookup "vm-1" = some rec1 ∧
      okBackend.Destroy rec1.vm = none ∧
      (∀ r, (RemovePodSandbox okBackend oneProvider ⟨some "vm-1"⟩).out ≠ Outcome.returned r) ∧
      (RemovePodSandbox okBackend oneProvider ⟨some "vm-1"⟩).v.vmMap.lookup "vm-1" =
        some rec1 := by
  have hout : (RemovePodSandbox okBackend oneProvider ⟨some "vm-1"⟩).out = Outcome.blocked := by
    rfl
  refine ⟨by decide, by decide, ?_, by decide⟩
  intro r h
  rw [hout] at h
  exact Outcome.noConfusion h

/-- C10: the lock operations of `RemovePodSandbox` at the failing input. After
`Lock`, `Destroy` and `RemovePod` the call requests `Lock` again while it holds
the lock; it blocks there, no `Unlock` is ever performed and the write lock stays
held. -/
theorem RemovePodSandbox_locks_twice :
    (RemovePodSandbox okBackend oneProvider ⟨some "vm-1"⟩).trace =
        [Event.Lock, Event.Destroy vm1, Event.RemovePod "vm-1", Event.Lock] ∧
      (RemovePodSandbox okBackend oneProvider ⟨some "vm-1"⟩).out = Outcome.blocked ∧
      (RemovePodSandbox okBackend oneProvider ⟨some "vm-1"⟩).v.vmMapLock = ⟨true, 0⟩ := by
  refine ⟨by decide, by rfl, by decide⟩

/-- C2: the code at the failing input. Provisioning succeeds and `GetIPs`
returns an empty list with no error; `RunPodSandbox` panics on `ips[0]` instead
of returning an error. The table is not touched. -/
theorem RunPodSandbox_empty_ips_panics :
    noIPBackend.Provision vm0 = Except.ok vm1 ∧
      noIPBackend.GetIPs vm1 = Except.ok [] ∧
      (RunPodSandbox noIPBackend newProvider prodReq).out =
        Outcome.panicked "runtime error: index out of range" ∧
      (RunPodSandbox noIPBackend newProvider prodReq).v = newProvider := by
  refine ⟨by rfl, by rfl, by rfl, by rfl⟩

/-! ## RunPodSandbox -/

/-- C7: if `Provision` fails, or `GetIPs` returns an error, or the client for
the first address cannot be built, `RunPodSandbox` returns an error and no
response, and the provider (table and lock) is exactly what it was. -/
theorem RunPodSandbox_failure_inserts_nothing (b : Backend) (nd src : String) (m : VmMap)
    (req : kubeapi.RunPodSandboxRequest)
    (hfail :
      (∃ e, b.Provision ⟨"", src, ⟨[⟨1, virtualbox.Backing.Bridged, nd⟩]⟩⟩ = Except.error e) ∨
      (∃ vm e, b.Provision ⟨"", src, ⟨[⟨1, virtualbox.Backing.Bridged, nd⟩]⟩⟩ = Except.ok vm ∧
        b.GetIPs vm = Except.error e) ∨
      (∃ vm ip ips e,
        b.Provision ⟨"", src, ⟨[⟨1, virtualbox.Backing.Bridged, nd⟩]⟩⟩ = Except.ok vm ∧
        b.GetIPs vm = Except.ok (ip :: ips) ∧ b.CreateClient ip.String = Except.error e)) :
    (∃ e, (RunPodSandbox b ⟨nd, src, m, RWMutex.free⟩ req).out =
        Outcome.returned (Except.error e)) ∧
      (RunPodSandbox b ⟨nd, src, m, RWMutex.free⟩ req).v = ⟨nd, src, m, RWMutex.free⟩ := by
  rcases hfail with ⟨e, hp⟩ | ⟨vm, e, hp, hi⟩ | ⟨vm, ip, ips, e, hp, hi, hc⟩
  · simp [RunPodSandbox, hp]
  · simp [RunPodSandbox, hp, hi]
  · simp [RunPodSandbox, hp, hi, hc]

/-- C7 at a concrete input: the VM is provisioned and has an address, and the
client cannot be built. -/
theorem RunPodSandbox_failure_inserts_nothing_witness :
    (∃ e, (RunPodSandbox noClientBackend ⟨"eth0", "/img/base.ova", [("vm-1", rec1)],
        RWMutex.free⟩ prodReq).out = Outcome.returned (Except.error e)) ∧
      (RunPodSandbox noClientBackend ⟨"eth0", "/img/base.ova", [("vm-1", rec1)],
        RWMutex.free⟩ prodReq).v = ⟨"eth0", "/img/base.ova", [("vm-1", rec1)], RWMutex.free⟩ :=
  RunPodSandbox_failure_inserts_nothing noClientBackend "eth0" "/img/base.ova"
    [("vm-1", rec1)] prodReq
    (Or.inr (Or.inr ⟨vm1, ⟨"10.0.0.5"⟩, [], "connection refused", by rfl, by rfl, by rfl⟩))

/-- C4: when `Provision`, `GetIPs` (with at least one address) and client
construction succeed, `RunPodSandbox` returns the backend's name for the VM as
sandbox id; the table then holds under that id the record with state `READY`,
the first address, the request's metadata, annotations, labels and namespace
options, the creation time, the client and the VM; every other key reads as
before; the lock is free; and a `PodSandboxStatus` for that id, with the VM
reported running, succeeds with the projection of that record, state `READY`. -/
theorem RunPodSandbox_success (b b' : Backend) (nd src : String) (m : VmMap)
    (req : kubeapi.RunPodSandboxRequest) (vm : virtualbox.VM) (ip : net.IP)
    (ips : List net.IP) (client : common.Client)
    (hprov : b.Provision ⟨"", src, ⟨[⟨1, virtualbox.Backing.Bridged, nd⟩]⟩⟩ = Except.ok vm)
    (hips : b.GetIPs vm = Except.ok (ip :: ips))
    (hclient : b.CreateClient ip.String = Except.ok client)
    (hrunning : b'.GetState vm = Except.ok lvm.VMState.VMRunning) :
    (RunPodSandbox b ⟨nd, src, m, RWMutex.free⟩ req).out =
        Outcome.returned (Except.ok ⟨some (b.GetName vm)⟩) ∧
      (RunPodSandbox b ⟨nd, src, m, RWMutex.free⟩ req).v.vmMap.lookup (b.GetName vm) =
        some { Id := b.GetName vm, Metadata := req.Config.Metadata,
               Annotations := req.Config.Annotations, CreatedAt := b.Now, Ip := ip.String,
               Labels := req.Config.Labels, Linux := req.Config.Linux, Client := client,
               PodState := kubeapi.PodSandBoxState.READY, vm := vm } ∧
      (∀ k, k ≠ b.GetName vm →
        (RunPodSandbox b ⟨nd, src, m, RWMutex.free⟩ req).v.vmMap.lookup k = m.lookup k) ∧
      (RunPodSandbox b ⟨nd, src, m, RWMutex.free⟩ req).v.vmMapLock = RWMutex.free ∧
      (PodSandboxStatus b' (RunPodSandbox b ⟨nd, src, m, RWMutex.free⟩ req).v
          ⟨some (b.GetName vm)⟩).out =
        Outcome.returned (Except.ok ⟨
          { Id := b.GetName vm, State := kubeapi.PodSandBoxState.READY,
            Metadata := req.Config.Metadata, Labels := req.Config.Labels,
            Annotations := req.Config.Annotations, CreatedAt := b.Now, Ip := ip.String,
            Linux := req.Config.Linux }⟩) := by
  have key : RunPodSandbox b ⟨nd, src, m, RWMutex.free⟩ req =
      ⟨⟨nd, src, m.store (b.GetName vm)
          { Id := b.GetName vm, Metadata := req.Config.Metadata,
            Annotations := req.Config.Annotations, CreatedAt := b.Now, Ip := ip.String,
            Labels := req.Config.Labels, Linux := req.Config.Linux, Client := client,
            PodState := kubeapi.PodSandBoxState.READY, vm := vm }, RWMutex.free⟩,
        [Event.Provision ⟨"", src, ⟨[⟨1, virtualbox.Backing.Bridged, nd⟩]⟩⟩, Event.GetIPs vm,
          Event.CreateClient ip.String, Event.GetName vm, Event.Lock, Event.Unlock],
        Outcome.returned (Except.ok ⟨some (b.GetName vm)⟩)⟩ := by
    simp [RunPodSandbox, hprov, hips, hclient, RWMutex.Lock, RWMutex.free, deferUnlock,
      RWMutex.Unlock]
  rw [key]
  refine ⟨rfl, VmMap.lookup_store_self _ _ _, ?_, rfl, ?_⟩
  · intro k hk
    exact VmMap.lookup_store_other _ _ _ _ hk
  · simp [PodSandboxStatus, RWMutex.RLock, RWMutex.free, vboxProvider.getPodData,
      kubeapi.PodSandboxStatusRequest.GetPodSandboxId, VmMap.lookup_store_self, hrunning,
      podData.observe, deferRUnlock, RWMutex.RUnlock, common.PodData.PodStatus]

/-- C4 at a concrete input: the first sandbox on a fresh provider. -/
theorem RunPodSandbox_success_witness :
    (RunPodSandbox okBackend newProvider prodReq).out =
        Outcome.returned (Except.ok ⟨some "vm-1"⟩) ∧
      (RunPodSandbox okBackend newProvider prodReq).v.vmMap.lookup "vm-1" = some rec1 ∧
      (PodSandboxStatus okBackend (RunPodSandbox okBackend newProvider prodReq).v
          ⟨some "vm-1"⟩).out =
        Outcome.returned (Except.ok ⟨rec1.PodStatus⟩) :=
  have h := RunPodSandbox_success okBackend okBackend "eth0" "/img/base.ova" [] prodReq vm1
    ⟨"10.0.0.5"⟩ [] ⟨"10.0.0.5"⟩ (by rfl) (by rfl) (by rfl) (by rfl)
  ⟨h.1, h.2.1, h.2.2.2.2⟩

/-! ## StopPodSandbox -/

/-- C9: `StopPodSandbox` returns an error exactly when the id is not in the
table; when the id is there it returns the (empty) success response whatever
`StopPod` answers; in both cases the keys of the table are what they were and
the lock is free again. -/
theorem StopPodSandbox_error_iff_absent (b : Backend) (nd src : String) (m : VmMap)
    (req : kubeapi.StopPodSandboxRequest) :
    ((∃ e, (StopPodSandbox b ⟨nd, src, m, RWMutex.free⟩ req).out =
          Outcome.returned (Except.error e)) ↔ m.lookup req.GetPodSandboxId = none) ∧
      ((StopPodSandbox b ⟨nd, src, m, RWMutex.free⟩ req).out =
          Outcome.returned (Except.ok {}) ↔ (m.lookup req.GetPodSandboxId).isSome = true) ∧
      (StopPodSandbox b ⟨nd, src, m, RWMutex.free⟩ req).v.vmMap.ids = m.ids ∧
      (StopPodSandbox b ⟨nd, src, m, RWMutex.free⟩ req).v.vmMapLock = RWMutex.free := by
  cases hl : m.lookup req.GetPodSandboxId with
  | none =>
    simp [StopPodSandbox, RWMutex.RLock, RWMutex.free, vboxProvider.getPodData, hl,
      deferRUnlock, RWMutex.RUnlock]
  | some pd =>
    simp [StopPodSandbox, RWMutex.RLock, RWMutex.free, vboxProvider.getPodData, hl,
      deferRUnlock, RWMutex.RUnlock, VmMap.ids_mutate]

/-- C9 at a concrete input: the id is stored and `StopPod` fails; the call still succeeds. -/
theorem StopPodSandbox_error_iff_absent_witness :
    noStopBackend.StopPod rec1.toPodData = (rec1.toPodData, some "stop failed") ∧
      (StopPodSandbox noStopBackend ⟨"eth0", "/img/base.ova", [("vm-1", rec1)], RWMutex.free⟩
        ⟨some "vm-1"⟩).out = Outcome.returned (Except.ok {}) :=
  ⟨by rfl,
    (StopPodSandbox_error_iff_absent noStopBackend "eth0" "/img/base.ova" [("vm-1", rec1)]
      ⟨some "vm-1"⟩).2.1.mpr (by decide)⟩

/-! ## ListPodSandbox -/

theorem filter_eq_spec (b : Backend) (pd : podData)
    (reqFilter : Option kubeapi.PodSandboxFilter) :
    filter b pd reqFilter =
      (ListPodSandbox.specState b pd, ListPodSandbox.specItem b reqFilter pd) := by
  unfold filter ListPodSandbox.specState ListPodSandbox.specItem
  cases hs : b.GetState pd.vm with
  | error e => rfl
  | ok st =>
    by_cases hr : st = lvm.VMState.VMRunning
    · by_cases hf : (pd.Filter reqFilter).1 = true <;>
        simp [podData.observe, hr, hf, hs, ListPodSandbox.specState]
    · by_cases hf : (common.PodData.Filter
          { pd.toPodData with PodState := kubeapi.PodSandBoxState.NOTREADY } reqFilter).1 = true <;>
        simp [podData.observe, hr, hf, hs, ListPodSandbox.specState]

theorem ListPodSandbox.loop_eq (b : Backend) (reqFilter : Option kubeapi.PodSandboxFilter)
    (m : VmMap) (sandboxes : List kubeapi.PodSandbox) (tr : List Event) :
    ListPodSandbox.loop b reqFilter m sandboxes tr =
      (m.map (fun e => (e.1, ListPodSandbox.specState b e.2)),
        sandboxes ++ m.filterMap (fun e => ListPodSandbox.specItem b reqFilter e.2),
        tr ++ m.map (fun e => Event.GetState e.2.vm)) := by
  induction m generalizing sandboxes tr with
  | nil => simp [ListPodSandbox.loop]
  | cons e rest ih =>
    obtain ⟨id, pd⟩ := e
    simp only [ListPodSandbox.loop, ih, filter_eq_spec]
    cases hi : ListPodSandbox.specItem b reqFilter pd <;>
      simp [List.filterMap_cons, hi]

theorem ListPodSandbox_eq (b : Backend) (nd src : String) (m : VmMap)
    (req : kubeapi.ListPodSandboxRequest) :
    ListPodSandbox b ⟨nd, src, m, RWMutex.free⟩ req =
      ⟨⟨nd, src, m.map (fun e => (e.1, ListPodSandbox.specState b e.2)), RWMutex.free⟩,
        [Event.RLock] ++ m.map (fun e => Event.GetState e.2.vm) ++ [Event.RUnlock],
        Outcome.returned (Except.ok
          ⟨m.filterMap (fun e => ListPodSandbox.specItem b req.Filter e.2)⟩)⟩ := by
  simp [ListPodSandbox, ListPodSandbox.loop_eq, RWMutex.RLock, RWMutex.free, deferRUnlock,
    RWMutex.RUnlock]

/-- C8: `ListPodSandbox` never returns an error. Its items are, in table order,
one projection for each record whose state query succeeds and which the filter
accepts after the state has been re-derived (the spec's `specItem`); every
record is left with its re-derived state (the spec's `specState`), one state
query is made per record, and a record whose state query fails yields no item
and stays in the table as it was. -/
theorem ListPodSandbox_items (b : Backend) (nd src : String) (m : VmMap)
    (req : kubeapi.ListPodSandboxRequest) :
    (ListPodSandbox b ⟨nd, src, m, RWMutex.free⟩ req).out =
        Outcome.returned (Except.ok
          ⟨m.filterMap (fun e => ListPodSandbox.specItem b req.Filter e.2)⟩) ∧
      (ListPodSandbox b ⟨nd, src, m, RWMutex.free⟩ req).v =
        ⟨nd, src, m.map (fun e => (e.1, ListPodSandbox.specState b e.2)), RWMutex.free⟩ ∧
      (ListPodSandbox b ⟨nd, src, m, RWMutex.free⟩ req).trace =
        [Event.RLock] ++ m.map (fun e => Event.GetState e.2.vm) ++ [Event.RUnlock] ∧
      (∀ e ∈ m, ∀ err, b.GetState e.2.vm = Except.error err →
        ListPodSandbox.specItem b req.Filter e.2 = none ∧
        e ∈ (ListPodSandbox b ⟨nd, src, m, RWMutex.free⟩ req).v.vmMap) := by
  rw [ListPodSandbox_eq]
  refine ⟨rfl, rfl, rfl, ?_⟩
  intro e he err herr
  refine ⟨by simp [ListPodSandbox.specItem, herr], ?_⟩
  simp only [List.mem_map]
  exact ⟨e, he, by simp [ListPodSandbox.specState, herr]⟩

/-! ## The state of a record under status and list calls -/

theorem entryStep_refl (e : String × podData) : entryStep e e :=
  ⟨rfl, rfl, rfl, fun h => h⟩

theorem entryStep_trans {a b c : String × podData} (hab : entryStep a b) (hbc : entryStep b c) :
    entryStep a c :=
  ⟨hbc.1.trans hab.1, hbc.2.1.trans hab.2.1, hbc.2.2.1.trans hab.2.2.1,
    fun h => hbc.2.2.2 (hab.2.2.2 h)⟩

theorem entryStep_observe (k : String) (pd : podData) (st : lvm.VMState) :
    entryStep (k, pd) (k, pd.observe st) := by
  unfold podData.observe
  by_cases h : st = lvm.VMState.VMRunning <;> simp [entryStep, h]

theorem entryStep_specState (b : Backend) (e : String × podData) :
    entryStep e (e.1, ListPodSandbox.specState b e.2) := by
  unfold ListPodSandbox.specState
  cases hs : b.GetState e.2.vm with
  | error err => simp [entryStep]
  | ok st => by_cases h : st = lvm.VMState.VMRunning <;> simp [entryStep, h]

theorem forall₂_entryStep_refl (m : VmMap) : List.Forall₂ entryStep m m := by
  induction m with
  | nil => exact List.Forall₂.nil
  | cons e rest ih => exact List.Forall₂.cons (entryStep_refl e) ih

theorem forall₂_entryStep_trans {m₁ m₂ m₃ : VmMap} (h₁ : List.Forall₂ entryStep m₁ m₂)
    (h₂ : List.Forall₂ entryStep m₂ m₃) : List.Forall₂ entryStep m₁ m₃ := by
  induction h₁ generalizing m₃ with
  | nil => cases h₂; exact List.Forall₂.nil
  | cons hab _ ih =>
    cases h₂ with
    | cons hbc hrest => exact List.Forall₂.cons (entryStep_trans hab hbc) (ih hrest)

theorem forall₂_entryStep_mutate (m : VmMap) (id : String) (pd pd' : podData)
    (hl : m.lookup id = some pd) (hs : entryStep (id, pd) (id, pd')) :
    List.Forall₂ entryStep m (m.mutate id pd') := by
  induction m with
  | nil => exact List.Forall₂.nil
  | cons e rest ih =>
    obtain ⟨k, x⟩ := e
    by_cases hk : k = id
    · subst hk
      simp [VmMap.lookup] at hl
      subst hl
      simp only [VmMap.mutate, if_true]
      exact List.Forall₂.cons hs (forall₂_entryStep_refl rest)
    · simp [VmMap.lookup, hk] at hl
      simp only [VmMap.mutate, hk, if_false]
      exact List.Forall₂.cons (entryStep_refl _) (ih hl)

theorem forall₂_entryStep_specState (b : Backend) (m : VmMap) :
    List.Forall₂ entryStep m (m.map (fun e => (e.1, ListPodSandbox.specState b e.2))) := by
  induction m with
  | nil => exact List.Forall₂.nil
  | cons e rest ih => exact List.Forall₂.cons (entryStep_specState b e) ih

theorem forall₂_entryStep_mem {m m' : VmMap} (h : List.Forall₂ entryStep m m')
    {e' : String × podData} (he' : e' ∈ m') : ∃ e ∈ m, entryStep e e' := by
  induction h with
  | nil => cases he'
  | cons hab _ ih =>
    rcases List.mem_cons.mp he' with rfl | hin
    · exact ⟨_, List.mem_cons_self _ _, hab⟩
    · obtain ⟨e, he, hs⟩ := ih hin
      exact ⟨e, List.mem_cons_of_mem _ he, hs⟩

theorem forall₂_entryStep_lookup {m m' : VmMap} (h : List.Forall₂ entryStep m m')
    {id : String} {pd : podData} (hl : m.lookup id = some pd) :
    ∃ pd', m'.lookup id = some pd' ∧ entryStep (id, pd) (id, pd') := by
  induction h with
  | nil => simp [VmMap.lookup] at hl
  | @cons a b l₁ l₂ hab _ ih =>
    obtain ⟨k, x⟩ := a
    obtain ⟨k', x'⟩ := b
    have hkk : k' = k := hab.1
    subst hkk
    by_cases hk : k' = id
    · subst hk
      simp [VmMap.lookup] at hl
      subst hl
      exact ⟨x', by simp [VmMap.lookup], hab⟩
    · simp [VmMap.lookup, hk] at hl
      obtain ⟨pd', hl', hs⟩ := ih hl
      exact ⟨pd', by simp [VmMap.lookup, hk, hl'], hs⟩

theorem VmMap.mem_of_lookup {m : VmMap} {id : String} {pd : podData}
    (hl : m.lookup id = some pd) : (id, pd) ∈ m := by
  induction m with
  | nil => simp [VmMap.lookup] at hl
  | cons e rest ih =>
    obtain ⟨k, x⟩ := e
    by_cases hk : k = id
    · subst hk
      simp [VmMap.lookup] at hl
      subst hl
      exact List.mem_cons_self _ _
    · simp [VmMap.lookup, hk] at hl
      exact List.mem_cons_of_mem _ (ih hl)

theorem VmMap.lookup_of_mem_nodup {m : VmMap} (hnd : m.ids.Nodup) {e : String × podData}
    (he : e ∈ m) : m.lookup e.1 = some e.2 := by
  induction m with
  | nil => cases he
  | cons a rest ih =>
    obtain ⟨k, x⟩ := a
    simp only [VmMap.ids, List.map_cons, List.nodup_cons] at hnd
    rcases List.mem_cons.mp he with rfl | hin
    · simp [VmMap.lookup]
    · have hne : k ≠ e.1 := by
        intro hk
        apply hnd.1
        rw [hk]
        exact List.mem_map_of_mem Prod.fst hin
      simp [VmMap.lookup, hne, ih hnd.2 hin]

theorem VmMap.mem_mutate {m : VmMap} (hnd : m.ids.Nodup) {id : String} {pd : podData}
    {e : String × podData} (he : e ∈ m.mutate id pd) : e = (id, pd) ∨ (e ∈ m ∧ e.1 ≠ id) := by
  induction m with
  | nil => cases he
  | cons a rest ih =>
    obtain ⟨k, x⟩ := a
    simp only [VmMap.ids, List.map_cons, List.nodup_cons] at hnd
    by_cases hk : k = id
    · subst hk
      simp only [VmMap.mutate, if_true] at he
      rcases List.mem_cons.mp he with rfl | hin
      · exact Or.inl rfl
      · refine Or.inr ⟨List.mem_cons_of_mem _ hin, ?_⟩
        intro h
        apply hnd.1
        rw [← h]
        exact List.mem_map_of_mem Prod.fst hin
    · simp only [VmMap.mutate, hk, if_false] at he
      rcases List.mem_cons.mp he with rfl | hin
      · exact Or.inr ⟨List.mem_cons_self _ _, hk⟩
      · rcases ih hnd.2 hin with h | ⟨h1, h2⟩
        · exact Or.inl h
        · exact Or.inr ⟨List.mem_cons_of_mem _ h1, h2⟩

theorem VmMap.allDown_step {m m' : VmMap} {id : String}
    (h : List.Forall₂ entryStep m m') (hd : m.allDown id) : m'.allDown id := by
  intro e' he' hid
  obtain ⟨e, he, hs⟩ := forall₂_entryStep_mem h he'
  exact hs.2.2.2 (hd e he (hs.2.1.symm.trans hid))

theorem PodSandboxStatus_ok (b : Backend) (nd src : String) (m : VmMap)
    (req : kubeapi.PodSandboxStatusRequest) (pd : podData) (st : lvm.VMState)
    (hl : m.lookup req.GetPodSandboxId = some pd) (hs : b.GetState pd.vm = Except.ok st) :
    PodSandboxStatus b ⟨nd, src, m, RWMutex.free⟩ req =
      ⟨⟨nd, src, m.mutate req.GetPodSandboxId (pd.observe st), RWMutex.free⟩,
        [Event.RLock, Event.GetState pd.vm, Event.RUnlock],
        Outcome.returned (Except.ok ⟨(pd.observe st).PodStatus⟩)⟩ := by
  simp [PodSandboxStatus, RWMutex.RLock, RWMutex.free, vboxProvider.getPodData, hl, hs,
    deferRUnlock, RWMutex.RUnlock]

theorem PodSandboxStatus_error (b : Backend) (nd src : String) (m : VmMap)
    (req : kubeapi.PodSandboxStatusRequest)
    (h : m.lookup req.GetPodSandboxId = none ∨
      ∃ pd e, m.lookup req.GetPodSandboxId = some pd ∧ b.GetState pd.vm = Except.error e) :
    ∃ tr e, PodSandboxStatus b ⟨nd, src, m, RWMutex.free⟩ req =
      ⟨⟨nd, src, m, RWMutex.free⟩, tr, Outcome.returned (Except.error e)⟩ := by
  rcases h with hl | ⟨pd, e, hl, hs⟩
  · exact ⟨_, _, by
      simp [PodSandboxStatus, RWMutex.RLock, RWMutex.free, vboxProvider.getPodData, hl,
        deferRUnlock, RWMutex.RUnlock]; exact ⟨rfl, rfl⟩⟩
  · exact ⟨_, _, by
      simp [PodSandboxStatus, RWMutex.RLock, RWMutex.free, vboxProvider.getPodData, hl, hs,
        deferRUnlock, RWMutex.RUnlock]; exact ⟨rfl, rfl⟩⟩

theorem specItem_mem {b : Backend} {reqFilter : Option kubeapi.PodSandboxFilter} {pd : podData}
    {s : kubeapi.PodSandbox} (h : ListPodSandbox.specItem b reqFilter pd = some s) :
    s = (ListPodSandbox.specState b pd).GetSandbox := by
  unfold ListPodSandbox.specItem at h
  cases hs : b.GetState pd.vm with
  | error e => simp [hs] at h
  | ok st =>
    simp only [hs] at h
    split at h
    · exact (Option.some.inj h).symm
    · cases h

/-- One call from a free lock: provider fields and lock come back as they were,
every entry makes an `entryStep`, and each state reported for `id` is the state
of a record with that id in the table the call leaves. -/
theorem Call.run_step (c : Call) (nd src : String) (m : VmMap) :
    ∃ m', (c.run ⟨nd, src, m, RWMutex.free⟩).1 = ⟨nd, src, m', RWMutex.free⟩ ∧
      List.Forall₂ entryStep m m' ∧
      ∀ id st, st ∈ (c.run ⟨nd, src, m, RWMutex.free⟩).2.statesFor id →
        ∃ e ∈ m', e.2.Id = id ∧ e.2.PodState = st := by
  cases c with
  | status b req =>
    cases hl : m.lookup req.GetPodSandboxId with
    | none =>
      obtain ⟨tr, e, h⟩ := PodSandboxStatus_error b nd src m req (Or.inl hl)
      exact ⟨m, by simp [Call.run, h], forall₂_entryStep_refl m, by
        simp [Call.run, h, Reply.statesFor]⟩
    | some pd =>
      cases hs : b.GetState pd.vm with
      | error e =>
        obtain ⟨tr, e', h⟩ := PodSandboxStatus_error b nd src m req (Or.inr ⟨pd, e, hl, hs⟩)
        exact ⟨m, by simp [Call.run, h], forall₂_entryStep_refl m, by
          simp [Call.run, h, Reply.statesFor]⟩
      | ok st =>
        have h := PodSandboxStatus_ok b nd src m req pd st hl hs
        refine ⟨m.mutate req.GetPodSandboxId (pd.observe st), by simp [Call.run, h],
          forall₂_entryStep_mutate m _ pd _ hl (entryStep_observe _ pd st), ?_⟩
        intro id s hmem
        simp only [Call.run, h, Reply.statesFor, common.PodData.PodStatus] at hmem
        split at hmem
        · rename_i hid
          simp only [List.mem_singleton] at hmem
          obtain ⟨pd', hl', _⟩ := forall₂_entryStep_lookup
            (forall₂_entryStep_mutate m _ pd (pd.observe st) hl (entryStep_observe _ pd st)) hl
          have hmut : (m.mutate req.GetPodSandboxId (pd.observe st)).lookup
              req.GetPodSandboxId = some (pd.observe st) := by
            clear hl' h hmem
            induction m with
            | nil => simp [VmMap.lookup] at hl
            | cons a rest ih =>
              obtain ⟨k, x⟩ := a
              by_cases hk : k = req.GetPodSandboxId
              · simp [VmMap.mutate, VmMap.lookup, hk]
              · simp [VmMap.lookup, hk] at hl
                simp [VmMap.mutate, VmMap.lookup, hk, ih hl]
          exact ⟨_, VmMap.mem_of_lookup hmut, hid, hmem.symm⟩
        · cases hmem
  | list b req =>
    have h := ListPodSandbox_eq b nd src m req
    refine ⟨m.map (fun e => (e.1, ListPodSandbox.specState b e.2)), by simp [Call.run, h],
      forall₂_entryStep_specState b m, ?_⟩
    intro id s hmem
    simp only [Call.run, h, Reply.statesFor, List.mem_map, List.mem_filter,
      List.mem_filterMap, decide_eq_true_eq] at hmem
    obtain ⟨sb, ⟨⟨e, he, hitem⟩, hid⟩, hst⟩ := hmem
    have hsb := specItem_mem hitem
    subst hsb
    exact ⟨(e.1, ListPodSandbox.specState b e.2), List.mem_map.mpr ⟨e, he, rfl⟩, hid, hst⟩

theorem runCalls_allDown (nd src : String) (id : String) (cs : List Call) :
    ∀ m : VmMap, m.allDown id →
      (∀ rep ∈ (runCalls ⟨nd, src, m, RWMutex.free⟩ cs).2,
        ∀ st ∈ rep.statesFor id, st = kubeapi.PodSandBoxState.NOTREADY) ∧
      ∃ m', (runCalls ⟨nd, src, m, RWMutex.free⟩ cs).1 = ⟨nd, src, m', RWMutex.free⟩ ∧
        List.Forall₂ entryStep m m' ∧ m'.allDown id := by
  induction cs with
  | nil =>
    intro m hd
    exact ⟨by simp [runCalls], m, rfl, forall₂_entryStep_refl m, hd⟩
  | cons c rest ih =>
    intro m hd
    obtain ⟨m₁, hv, hstep, hrep⟩ := Call.run_step c nd src m
    have hd₁ : m₁.allDown id := VmMap.allDown_step hstep hd
    obtain ⟨hreps, m₂, hv₂, hstep₂, hd₂⟩ := ih m₁ hd₁
    simp only [runCalls, hv]
    refine ⟨?_, m₂, hv₂, forall₂_entryStep_trans hstep hstep₂, hd₂⟩
    intro rep hmem st hst
    rcases List.mem_cons.mp hmem with rfl | hin
    · obtain ⟨e, he, hid, hs⟩ := hrep id st hst
      rw [← hs]
      exact hd₁ e he hid
    · exact hreps rep hin st hst

theorem observe_notRunning (pd : podData) (st : lvm.VMState)
    (h : st ≠ lvm.VMState.VMRunning) :
    (pd.observe st).PodState = kubeapi.PodSandBoxState.NOTREADY := by
  simp [podData.observe, h]

theorem Call.run_observes (c : Call) (nd src : String) (m : VmMap) (id : String)
    (hwf : m.WF) (hobs : c.observesNotRunning m id = true) :
    (c.run ⟨nd, src, m, RWMutex.free⟩).1.vmMap.allDown id := by
  cases c with
  | status b req =>
    simp only [Call.observesNotRunning, Bool.and_eq_true, decide_eq_true_eq] at hobs
    obtain ⟨hreq, hnr⟩ := hobs
    cases hl : m.lookup id with
    | none => simp [hl] at hnr
    | some pd =>
      simp only [hl, Backend.notRunning] at hnr
      cases hs : b.GetState pd.vm with
      | error e => simp [hs] at hnr
      | ok st =>
        simp only [hs, decide_eq_true_eq] at hnr
        rw [← hreq] at hl
        have h := PodSandboxStatus_ok b nd src m req pd st hl hs
        simp only [Call.run, h]
        intro e he hid
        rcases VmMap.mem_mutate hwf.1 he with rfl | ⟨hin, hne⟩
        · exact observe_notRunning pd st hnr
        · exact absurd ((hwf.2 e hin).symm.trans (hid.trans hreq.symm)) hne
  | list b req =>
    simp only [Call.observesNotRunning] at hobs
    cases hl : m.lookup id with
    | none => simp [hl] at hobs
    | some pd =>
      simp only [hl, Backend.notRunning] at hobs
      cases hs : b.GetState pd.vm with
      | error e => simp [hs] at hobs
      | ok st =>
        simp only [hs, decide_eq_true_eq] at hobs
        have h := ListPodSandbox_eq b nd src m req
        simp only [Call.run, h]
        intro e' he' hid
        obtain ⟨e, he, rfl⟩ := List.mem_map.mp he'
        have hkey : e.1 = id := by
          have h1 : e.2.Id = e.1 := hwf.2 e he
          have h2 : (ListPodSandbox.specState b e.2).Id = e.2.Id :=
            (entryStep_specState b e).2.1
          exact h1.symm.trans (h2.symm.trans hid)
        have hlook := VmMap.lookup_of_mem_nodup hwf.1 he
        rw [hkey, hl] at hlook
        have hpd : e.2 = pd := (Option.some.inj hlook).symm
        simp [ListPodSandbox.specState, hpd, hs, hobs]

/-- C5: take a well-formed table, a status or list call that sees the VM of the
record stored under `id` not running, and any later sequence of status and list
calls with arbitrary backend answers. Then every state the first call and every
later call report for `id` is `NOTREADY`, and the record under `id` ends
`NOTREADY`. Moreover, for every table and every such call, each entry keeps its
key, id and VM, and a record that was `NOTREADY` before the call is `NOTREADY`
after it. -/
theorem podState_stays_notready (nd src : String) (m : VmMap) (id : String) (c : Call)
    (cs : List Call) (hwf : m.WF) (hobs : c.observesNotRunning m id = true) :
    (∀ st ∈ (c.run ⟨nd, src, m, RWMutex.free⟩).2.statesFor id,
        st = kubeapi.PodSandBoxState.NOTREADY) ∧
      (∀ rep ∈ (runCalls (c.run ⟨nd, src, m, RWMutex.free⟩).1 cs).2,
        ∀ st ∈ rep.statesFor id, st = kubeapi.PodSandBoxState.NOTREADY) ∧
      (∃ pd, (runCalls (c.run ⟨nd, src, m, RWMutex.free⟩).1 cs).1.vmMap.lookup id = some pd ∧
        pd.PodState = kubeapi.PodSandBoxState.NOTREADY) ∧
      (∀ (m₀ : VmMap) (c₀ : Call),
        List.Forall₂ entryStep m₀ (c₀.run ⟨nd, src, m₀, RWMutex.free⟩).1.vmMap) := by
  obtain ⟨m₁, hv, hstep, hrep⟩ := Call.run_step c nd src m
  have hd₁ : m₁.allDown id := by
    have h := Call.run_observes c nd src m id hwf hobs
    rw [hv] at h
    exact h
  obtain ⟨hreps, m₂, hv₂, hstep₂, hd₂⟩ := runCalls_allDown nd src id cs m₁ hd₁
  have hpresent : ∃ pd, m.lookup id = some pd := by
    cases hl : m.lookup id with
    | some pd => exact ⟨pd, rfl⟩
    | none =>
      cases c with
      | status b req => simp [Call.observesNotRunning, hl] at hobs
      | list b req => simp [Call.observesNotRunning, hl] at hobs
  obtain ⟨pd, hl⟩ := hpresent
  refine ⟨?_, ?_, ?_, ?_⟩
  · intro st hst
    obtain ⟨e, he, hid, hs⟩ := hrep id st hst
    rw [← hs]
    exact hd₁ e he hid
  · rw [hv]
    exact hreps
  · rw [hv, hv₂]
    obtain ⟨pd', hl', hs⟩ := forall₂_entryStep_lookup (forall₂_entryStep_trans hstep hstep₂) hl
    refine ⟨pd', hl', hd₂ (id, pd') (VmMap.mem_of_lookup hl') ?_⟩
    have h1 : pd.Id = id := hwf.2 (id, pd) (VmMap.mem_of_lookup hl)
    exact hs.2.1.trans h1
  · intro m₀ c₀
    obtain ⟨m', hv', hstep', _⟩ := Call.run_step c₀ nd src m₀
    rw [hv']
    exact hstep'

/-- C5 at a concrete input: a list call sees `vm-1` halted; afterwards the VM
reports running again, and a status call and a list call still report `NOTREADY`. -/
theorem podState_stays_notready_witness :
    (runCalls (Call.run ⟨"eth0", "/img/base.ova", [("vm-1", rec1)], RWMutex.free⟩
        (Call.list haltedBackend ⟨none⟩)).1
        [Call.status okBackend ⟨some "vm-1"⟩, Call.list okBackend ⟨none⟩]).2.map
          (Reply.statesFor "vm-1") =
        [[kubeapi.PodSandBoxState.NOTREADY], [kubeapi.PodSandBoxState.NOTREADY]] ∧
      ∀ rep ∈ (runCalls (Call.run ⟨"eth0", "/img/base.ova", [("vm-1", rec1)], RWMutex.free⟩
          (Call.list haltedBackend ⟨none⟩)).1
          [Call.status okBackend ⟨some "vm-1"⟩, Call.list okBackend ⟨none⟩]).2,
        ∀ st ∈ rep.statesFor "vm-1", st = kubeapi.PodSandBoxState.NOTREADY :=
  ⟨by decide,
    (podState_stays_notready "eth0" "/img/base.ova" [("vm-1", rec1)] "vm-1"
      (Call.list haltedBackend ⟨none⟩)
      [Call.status okBackend ⟨some "vm-1"⟩, Call.list okBackend ⟨none⟩]
      ⟨by decide, by decide⟩ (by decide)).2.1⟩

/-- C8 at a concrete input: the stored sandbox carries the label `env=prod`; a
list with selector `env=prod` returns exactly its projection, a list with
selector `env=dev` returns nothing, and neither returns an error. -/
theorem ListPodSandbox_items_witness :
    (ListPodSandbox okBackend ⟨"eth0", "/img/base.ova", [("vm-1", rec1)], RWMutex.free⟩
        ⟨some ⟨none, none, [("env", "prod")]⟩⟩).out =
        Outcome.returned (Except.ok ⟨[rec1.GetSandbox]⟩) ∧
      (ListPodSandbox okBackend ⟨"eth0", "/img/base.ova", [("vm-1", rec1)], RWMutex.free⟩
        ⟨some ⟨none, none, [("env", "dev")]⟩⟩).out =
        Outcome.returned (Except.ok ⟨[]⟩) :=
  ⟨(ListPodSandbox_items okBackend "eth0" "/img/base.ova" [("vm-1", rec1)]
      ⟨some ⟨none, none, [("env", "prod")]⟩⟩).1,
    (ListPodSandbox_items okBackend "eth0" "/img/base.ova" [("vm-1", rec1)]
      ⟨some ⟨none, none, [("env", "dev")]⟩⟩).1⟩

end Infranetes
